import Mathlib

/-!
Verification of the AI-Teacher voice-chat backend (server.py and app/).

Shallow embedding: bytes are modelled as `Nat`, binary frames as
`List Nat`, and the per-connection pipeline of `voice_chat` as pure
functions over explicit inputs (transcription outcome, response-stream
fragments, stream success flag, persistence outcomes).  All thresholds
are the literal constants of the source.
-/

namespace AITeacher

/-! ## Audio accumulator (server.py, `voice_chat` buffering loop) -/

/-- server.py: `min_audio_size = 8000`. -/
def min_audio_size : Nat := 8000

/-- server.py: `max_buffer_size = 500000`. -/
def max_buffer_size : Nat := 500000

/-- server.py: `total_buffered = sum(len(chunk) for chunk in audio_buffer)`. -/
def totalBuffered (buf : List (List Nat)) : Nat :=
  (buf.map List.length).sum

/-- server.py: `should_process = (total_buffered >= min_audio_size and
incoming_audio_bytes == b'') or total_buffered >= max_buffer_size`.
Note the first disjunct tests the frame that just arrived, not whether an
empty frame appeared anywhere earlier in the buffer. -/
def shouldProcess (total : Nat) (incoming : List Nat) : Bool :=
  (decide (min_audio_size ≤ total) && decide (incoming = [])) ||
    decide (max_buffer_size ≤ total)

/-- One iteration of the buffering loop in `voice_chat`: append the frame,
recompute the total, and either retain the buffer (`continue`) or flush
(`b''.join(audio_buffer); audio_buffer.clear()`).  Returns the new buffer and
the flushed segment, if any. -/
def accStep (buffer : List (List Nat)) (incoming : List Nat) :
    List (List Nat) × Option (List Nat) :=
  let buffer' := buffer ++ [incoming]
  let total := totalBuffered buffer'
  if !shouldProcess total incoming && decide (total < max_buffer_size) then
    (buffer', none)
  else
    ([], some buffer'.flatten)

/-- Run the buffering loop of `voice_chat` from a given buffer over the
remaining inbound frames, collecting every flushed segment in order. -/
def runAccFrom (buffer : List (List Nat)) :
    List (List Nat) → List (List Nat) × List (List Nat)
  | [] => (buffer, [])
  | f :: fs =>
    let (buf', fl) := accStep buffer f
    let (bufEnd, fls) := runAccFrom buf' fs
    (bufEnd, fl.toList ++ fls)

/-- Run the buffering loop of `voice_chat` over a whole inbound frame
sequence (the buffer starts empty), returning the final buffer and every
flushed segment in order. -/
def runAcc (frames : List (List Nat)) : List (List Nat) × List (List Nat) :=
  runAccFrom [] frames

/-! ## Spec-side accumulator, for comparison with the code's

The claim reads the flush condition as "the end-of-utterance marker (an
empty frame) has been seen", i.e. a marker anywhere since the last flush
counts.  The following definitions follow the spec's words (a sticky
marker-seen flag, reset on flush) so they can be compared with the code's
`accStep`, which tests only the frame that just arrived. -/

/-- Modelled from the spec's words: flush when (total ≥ min AND a marker
has been seen since the last flush) OR total ≥ max. -/
def specShouldFlush (total : Nat) (markerSeen : Bool) : Bool :=
  (decide (min_audio_size ≤ total) && markerSeen) ||
    decide (max_buffer_size ≤ total)

/-- Modelled from the spec's words: one accumulator step carrying a sticky
marker-seen flag, reset when a segment is flushed. -/
def specAccStep (buffer : List (List Nat)) (markerSeen : Bool)
    (incoming : List Nat) :
    (List (List Nat) × Bool) × Option (List Nat) :=
  let buffer' := buffer ++ [incoming]
  let seen := markerSeen || decide (incoming = [])
  if specShouldFlush (totalBuffered buffer') seen then
    (([], false), some buffer'.flatten)
  else
    ((buffer', seen), none)

/-- Modelled from the spec's words: run the marker-seen accumulator over a
frame sequence, collecting flushed segments in order. -/
def specRunAccFrom (buffer : List (List Nat)) (markerSeen : Bool) :
    List (List Nat) → (List (List Nat) × Bool) × List (List Nat)
  | [] => ((buffer, markerSeen), [])
  | f :: fs =>
    let (st, fl) := specAccStep buffer markerSeen f
    let (stEnd, fls) := specRunAccFrom st.1 st.2 fs
    (stEnd, fl.toList ++ fls)

/-- Modelled from the spec's words: whole-sequence run of the marker-seen
accumulator starting empty. -/
def specRunAcc (frames : List (List Nat)) :
    (List (List Nat) × Bool) × List (List Nat) :=
  specRunAccFrom [] false frames

/-! ## Whitespace stripping

Python's `str.strip()` (used on the recognizer response and on the
transcription emptiness check) removes leading and trailing whitespace. -/

/-- Python `str.strip()`: drop leading and trailing whitespace
characters. -/
def stripWS (s : String) : String :=
  String.mk
    (((s.toList.dropWhile Char.isWhitespace).reverse.dropWhile
      Char.isWhitespace).reverse)

/-! ## Transcription (app/stt.py, `transcribe_audio_data`)

The recognizer call is external; its outcome is an explicit input.  The
result type is `Except String String` so that "raises a
TranscriptionError" is expressible; the source's behaviour is to catch
every exception and `return ""`, so the embedding never produces
`Except.error`. -/

/-- Outcome of the upstream Groq recognizer call: recognized text, or a
rejection / unreachable-backend failure. -/
inductive RecognizerOutcome where
  | success (text : String)
  | failure
  deriving DecidableEq

/-- app/stt.py `transcribe_audio_data`: on success return the stripped
text (`response.strip()`); on any exception log it and `return ""` — the
exception is swallowed, never re-raised. -/
def transcribe_audio_data (outcome : RecognizerOutcome) :
    Except String String :=
  match outcome with
  | .success text => .ok (stripWS text)
  | .failure => .ok ""

/-! ## Per-turn pipeline (server.py, body of the `voice_chat` loop) -/

/-- Outbound websocket events sent by `voice_chat` via `send_json`. -/
inductive OutEvent where
  | userTranscript (text : String)
  | aiTranscript (text : String)
  deriving DecidableEq

/-- One dispatched `save_to_db` call: the arguments of
`save_to_db(SessionLocal, db_session.id, transcription, ai_response,
processing_time)`. -/
structure PersistCall where
  sessionId : Nat
  userTranscript : String
  aiResponse : String
  processingTime : Nat
  deriving DecidableEq

/-- server.py: `if not transcription or len(transcription.strip()) == 0`. -/
def isEmptyTranscription (s : String) : Bool :=
  s == "" || decide ((stripWS s).length = 0)

/-- The outcome of one turn's response stream: the fragments yielded by
`result.stream_text(delta=True)` before the stream either completed
(`streamOk = true`) or raised mid-stream (`streamOk = false`). -/
structure TurnInput where
  transcription : String
  fragments : List String
  streamOk : Bool
  procTime : Nat
  deriving DecidableEq

/-- One iteration of the per-turn processing in `voice_chat`, after a
segment was flushed: skip empty transcriptions; otherwise send the
user transcript, accumulate the fragment stream into `ai_response`, and —
only if the stream completed without raising — send the single
`ai_transcript` event and, when a database session exists, dispatch one
`save_to_db` task.  A mid-stream exception is caught by the turn-level
`except`, which logs, clears the buffer and `continue`s: nothing after the
stream runs.  Returns (outbound events, dispatched persistence calls). -/
def processTurn (dbSession : Option Nat) (t : TurnInput) :
    List OutEvent × List PersistCall :=
  if isEmptyTranscription t.transcription then
    ([], [])
  else if t.streamOk then
    let aiResponse := String.join t.fragments
    ([.userTranscript t.transcription, .aiTranscript aiResponse],
      match dbSession with
      | some sid => [⟨sid, t.transcription, aiResponse, t.procTime⟩]
      | none => [])
  else
    ([.userTranscript t.transcription], [])

/-- The turn loop of `voice_chat`: every flushed turn is processed in
order; a turn never terminates the loop (empty transcriptions `continue`,
turn-level exceptions are caught and `continue`). -/
def runTurns (dbSession : Option Nat) : List TurnInput →
    List OutEvent × List PersistCall
  | [] => ([], [])
  | t :: rest =>
    let (evs, ps) := processTurn dbSession t
    let (evs', ps') := runTurns dbSession rest
    (evs ++ evs', ps ++ ps')

/-! ## Persistence write (server.py, `save_to_db`) and the Conversation row -/

/-- Outcome of the database commit inside `save_to_db._save`: either the
commit succeeds or it raises. -/
inductive DBOutcome where
  | ok
  | fail
  deriving DecidableEq

/-- app/models.py `Conversation`: the columns set or defaulted when
`save_to_db` constructs the row.  `audio_duration` and `processing_time`
are nullable (`Option`). -/
structure Conversation where
  session_id : Nat
  user_transcript : String
  ai_response : String
  audio_duration : Option Nat
  processing_time : Option Nat
  deriving DecidableEq

/-- server.py `save_to_db`: the `Conversation(...)` constructor call.  It
passes `session_id`, `user_transcript`, `ai_response` and
`processing_time`; `audio_duration` is not among the keyword arguments, so
the nullable column keeps its default `None`. -/
def mkConversation (sid : Nat) (userText aiText : String)
    (procTime : Nat) : Conversation :=
  { session_id := sid
    user_transcript := userText
    ai_response := aiText
    audio_duration := none
    processing_time := some procTime }

/-- What one `save_to_db` invocation did: whether the row was committed,
whether an error was logged, and whether an exception escaped the call. -/
structure SaveResult where
  committed : Bool
  loggedError : Bool
  raised : Bool
  deriving DecidableEq

/-- server.py `save_to_db._save`: build the `Conversation` row from the
call's arguments and commit it; `except Exception` logs the error and
rolls back — the exception never escapes, so `raised` is false on both
branches.  Returns the row it tried to write and what happened. -/
def save_to_db (call : PersistCall) (outcome : DBOutcome) :
    Conversation × SaveResult :=
  let row := mkConversation call.sessionId call.userTranscript
    call.aiResponse call.processingTime
  match outcome with
  | .ok => (row, { committed := true, loggedError := false, raised := false })
  | .fail => (row, { committed := false, loggedError := true, raised := false })

/-- The connection loop with persistence outcomes threaded in: each turn's
dispatched `save_to_db` tasks run fire-and-forget (the loop never awaits
them), so their outcomes are consumed only to build the save results — the
events and the persistence-call stream of later turns cannot depend on
them. -/
def runConnFrom (dbSession : Option Nat) (oracle : Nat → DBOutcome)
    (k : Nat) :
    List TurnInput → List OutEvent × List PersistCall × List SaveResult
  | [] => ([], [], [])
  | t :: rest =>
    let (evs, ps) := processTurn dbSession t
    let rs := ps.map (fun c => (save_to_db c (oracle k)).2)
    let (evs', ps', rs') := runConnFrom dbSession oracle (k + 1) rest
    (evs ++ evs', ps ++ ps', rs ++ rs')

/-- Whole-connection run starting at the first turn.  `oracle k` is the
commit outcome of turn `k`'s background write. -/
def runConn (dbSession : Option Nat) (oracle : Nat → DBOutcome)
    (turns : List TurnInput) :
    List OutEvent × List PersistCall × List SaveResult :=
  runConnFrom dbSession oracle 0 turns

/-! ## Session records (app/models.py `Session`, server.py
`create_session` / `end_session`) -/

/-- app/models.py `Session`: the columns the core reads and writes.
`ended_at` is nullable; `is_active` defaults to true. -/
structure SessionRec where
  session_token : String
  started_at : Nat
  ended_at : Option Nat
  is_active : Bool
  deriving DecidableEq

/-- server.py `create_session._create`: `DBSession(session_token=...,
is_active=True)` — `ended_at` is not passed, so it keeps its nullable
default `None`. -/
def create_session (token : String) (now : Nat) : SessionRec :=
  { session_token := token
    started_at := now
    ended_at := none
    is_active := true }

/-- server.py `end_session._end`: sets `is_active = False` and
`ended_at = datetime.utcnow()` together, then commits. -/
def end_session (s : SessionRec) (now : Nat) : SessionRec :=
  { s with is_active := false, ended_at := some now }

/-- The spec's Session invariant: `ended_at` is set iff
`is_active == false`. -/
def sessionInvariant (s : SessionRec) : Prop :=
  s.ended_at.isSome = true ↔ s.is_active = false

/-! ## Connection lifecycle (server.py, `voice_chat` try/except/finally) -/

/-- How the `voice_chat` inbound loop ends: the `async for` completes
normally, the client disconnects (raises out of `iter_bytes`), or an
unhandled error escapes mid-turn.  All three reach the same `finally`. -/
inductive ExitPath where
  | normalClose
  | clientDisconnect
  | errorMidTurn
  deriving DecidableEq

/-- Observable connection-level events of one `voice_chat` call. -/
inductive ConnEvent where
  | turnProcessed
  | errorLogged
  | sessionClosed (sid : Nat)
  deriving DecidableEq

/-- server.py `voice_chat` control flow: the body runs some number of
turns, the two abnormal exits are caught and logged by
`except Exception`, and the `finally` block runs on every path, calling
`end_session` exactly when `db_session` is truthy (session creation
succeeded). -/
def runConnection (dbSession : Option Nat) (path : ExitPath)
    (nTurns : Nat) : List ConnEvent :=
  let body := List.replicate nTurns ConnEvent.turnProcessed
  let bodyEnd :=
    match path with
    | .normalClose => []
    | .clientDisconnect => [ConnEvent.errorLogged]
    | .errorMidTurn => [ConnEvent.errorLogged]
  let cleanup :=
    match dbSession with
    | some sid => [ConnEvent.sessionClosed sid]
    | none => []
  body ++ bodyEnd ++ cleanup

/-- Number of `end_session` calls in a connection trace. -/
def countClosed (tr : List ConnEvent) : Nat :=
  tr.countP (fun e =>
    match e with
    | .sessionClosed _ => true
    | _ => false)

/-! ## Persistence scheduling (server.py, `asyncio.create_task` dispatch)

`voice_chat` dispatches each turn's write with
`asyncio.create_task(save_to_db(...))`; `save_to_db` runs the commit via
`asyncio.to_thread` on the default thread pool.  There is no per-session
queue, lock or ordering key anywhere in the source, so the order in which
dispatched writes commit is an arbitrary permutation of the submission
order.  A schedule is the commit order, given by indices into the
submission list. -/

/-- Apply a commit schedule to the submitted writes: the rows are
committed in schedule order. -/
def applySchedule (calls : List PersistCall) (sched : List Nat) :
    List PersistCall :=
  sched.filterMap (fun i => calls[i]?)

/-- A schedule is admissible when it commits every dispatched write
exactly once — any permutation of the submission indices, since the source
imposes no ordering between the background tasks. -/
def admissibleSchedule (len : Nat) (sched : List Nat) : Prop :=
  List.Perm sched (List.range len)

/-! ## Helper lemmas -/

/-- The inner `total < max` test of the buffering branch is redundant:
the step flushes exactly when `should_process` holds. -/
theorem accStep_eq_ite (buffer : List (List Nat)) (incoming : List Nat) :
    accStep buffer incoming =
      if shouldProcess (totalBuffered (buffer ++ [incoming])) incoming
      then ([], some ((buffer ++ [incoming]).flatten))
      else (buffer ++ [incoming], none) := by
  unfold accStep
  by_cases hsp : shouldProcess (totalBuffered (buffer ++ [incoming])) incoming
  · simp [hsp]
  · have hlt : totalBuffered (buffer ++ [incoming]) < max_buffer_size := by
      by_contra hge
      push_neg at hge
      simp [shouldProcess, hge] at hsp
    simp [hsp, hlt]

/-- The combined flushed segment carries every buffered byte: its length
is the buffer's byte total. -/
theorem flatten_length_total (buf : List (List Nat)) :
    buf.flatten.length = totalBuffered buf := by
  simp [totalBuffered, List.length_flatten]

/-- A trace of processed turns contains no session-close event. -/
theorem countClosed_turn_body (n : Nat) :
    countClosed (List.replicate n ConnEvent.turnProcessed) = 0 := by
  simp [countClosed, List.countP_replicate]

/-- The connection run's events and dispatched persistence calls equal
those of the pure turn loop, whatever the persistence outcomes are. -/
theorem runConnFrom_events_calls (dbSession : Option Nat)
    (oracle : Nat → DBOutcome) (k : Nat) (turns : List TurnInput) :
    (runConnFrom dbSession oracle k turns).1 =
      (runTurns dbSession turns).1 ∧
    (runConnFrom dbSession oracle k turns).2.1 =
      (runTurns dbSession turns).2 := by
  induction turns generalizing k with
  | nil => exact ⟨rfl, rfl⟩
  | cons t rest ih =>
    have h := ih (k + 1)
    simp [runConnFrom, runTurns, h.1, h.2]

/-- Every save result in a connection run comes out of `save_to_db`, so
none of them reports an escaped exception. -/
theorem runConnFrom_never_raises (dbSession : Option Nat)
    (oracle : Nat → DBOutcome) (k : Nat) (turns : List TurnInput) :
    ∀ r ∈ (runConnFrom dbSession oracle k turns).2.2, r.raised = false := by
  induction turns generalizing k with
  | nil => intro r hr; simp [runConnFrom] at hr
  | cons t rest ih =>
    intro r hr
    simp [runConnFrom] at hr
    rcases hr with ⟨c, _, hc⟩ | hr
    · rw [← hc]; cases oracle k <;> rfl
    · exact ih (k + 1) r hr

/-- Reading every index of a list back in order reproduces the list. -/
theorem filterMap_getElem_range (calls : List PersistCall) :
    (List.range calls.length).filterMap (fun i => calls[i]?) = calls := by
  induction calls using List.reverseRecOn with
  | nil => rfl
  | append_singleton l a ih =>
    rw [List.length_append]
    simp only [List.length_singleton]
    rw [List.range_succ, List.filterMap_append]
    have h1 : (List.range l.length).filterMap (fun i => (l ++ [a])[i]?) =
        (List.range l.length).filterMap (fun i => l[i]?) := by
      refine List.filterMap_congr ?_
      intro i hi
      exact List.getElem?_append_left (List.mem_range.mp hi)
    have h2 : (l ++ [a])[l.length]? = some a := List.getElem?_concat_length l a
    rw [h1, ih]
    simp [h2]

/-! ## Claim theorems -/

/-- C2: a turn whose transcription is empty or whitespace-only produces
zero outbound events and zero persistence calls, and the loop simply
continues with the remaining turns (the connection stays open, back to
awaiting audio). -/
theorem empty_transcription_no_effects (dbSession : Option Nat)
    (t : TurnInput) (rest : List TurnInput)
    (h : isEmptyTranscription t.transcription = true) :
    processTurn dbSession t = ([], []) ∧
    runTurns dbSession (t :: rest) = runTurns dbSession rest := by
  have h1 : processTurn dbSession t = ([], []) := by
    simp [processTurn, h]
  exact ⟨h1, by simp [runTurns, h1]⟩

/-- Witness for C2 at the whitespace-only transcription of three
blanks. -/
theorem empty_transcription_no_effects_witness :
    processTurn (some 1) ⟨"   ", ["x"], true, 1⟩ = ([], []) ∧
    runTurns (some 1) [⟨"   ", ["x"], true, 1⟩] = runTurns (some 1) [] :=
  empty_transcription_no_effects (some 1) ⟨"   ", ["x"], true, 1⟩ []
    (by decide)

/-- C5 counterexample: on a recognizer failure `transcribe_audio_data`
does not raise — the `except Exception` branch swallows the error and
returns the empty string, so the result is `Except.ok ""`, never
`Except.error`. -/
theorem transcription_error_never_raised_cex :
    transcribe_audio_data RecognizerOutcome.failure = Except.ok "" := rfl

/-- C5 (amended): `transcribe_audio_data` returns normally on every
recognizer outcome — the stripped recognized text on success and the
empty string on failure; the caller detects failure only through the
empty result. -/
theorem transcribe_returns_empty_on_failure (outcome : RecognizerOutcome)
    (t : String) :
    (transcribe_audio_data outcome).isOk = true ∧
    transcribe_audio_data RecognizerOutcome.failure = Except.ok "" ∧
    transcribe_audio_data (RecognizerOutcome.success t) =
      Except.ok (stripWS t) := by
  refine ⟨?_, rfl, rfl⟩
  cases outcome <;> rfl

/-- C7: `end_session` runs exactly once per connection whenever session
creation succeeded — on the normal-close, client-disconnect and mid-turn
error exits alike, via the `finally` block — and not at all when creation
failed. -/
theorem close_session_exactly_once (dbSession : Option Nat)
    (path : ExitPath) (n : Nat) :
    countClosed (runConnection dbSession path n) =
      (if dbSession.isSome then 1 else 0) := by
  cases dbSession <;> cases path <;>
    simp [runConnection, countClosed, List.countP_append,
      List.countP_replicate]

/-- C10: a created session is active with null `ended_at`, ending a
session sets `is_active = false` and `ended_at` together, and the
invariant (`ended_at` set iff not active) holds after both operations;
create followed by end is the active-to-ended transition. -/
theorem session_invariant_preserved (token : String) (now later : Nat)
    (s : SessionRec) :
    sessionInvariant (create_session token now) ∧
    (create_session token now).is_active = true ∧
    (create_session token now).ended_at = none ∧
    sessionInvariant (end_session s later) ∧
    (end_session s later).is_active = false ∧
    (end_session s later).ended_at = some later ∧
    (end_session (create_session token now) later).is_active = false := by
  refine ⟨?_, rfl, rfl, ?_, rfl, rfl, rfl⟩ <;>
    simp [sessionInvariant, create_session, end_session]

/-- C1 (amended): one buffering step flushes exactly when (total buffered
bytes ≥ 8000 and the frame that just arrived is the empty marker) or the
total has reached 500000; the flushed segment is the concatenation of the
buffered chunks and is never empty; otherwise every chunk is retained. -/
theorem acc_flush_characterization (buffer : List (List Nat))
    (incoming : List Nat) :
    ((accStep buffer incoming).2 =
      if (min_audio_size ≤ totalBuffered (buffer ++ [incoming]) ∧
            incoming = []) ∨
          max_buffer_size ≤ totalBuffered (buffer ++ [incoming])
      then some ((buffer ++ [incoming]).flatten)
      else none) ∧
    ((accStep buffer incoming).1 =
      if (min_audio_size ≤ totalBuffered (buffer ++ [incoming]) ∧
            incoming = []) ∨
          max_buffer_size ≤ totalBuffered (buffer ++ [incoming])
      then []
      else buffer ++ [incoming]) ∧
    (accStep buffer incoming).2.all (fun seg => !seg.isEmpty) = true := by
  rw [accStep_eq_ite]
  have hiff : shouldProcess (totalBuffered (buffer ++ [incoming]))
      incoming = true ↔
      ((min_audio_size ≤ totalBuffered (buffer ++ [incoming]) ∧
          incoming = []) ∨
        max_buffer_size ≤ totalBuffered (buffer ++ [incoming])) := by
    simp [shouldProcess]
  by_cases hc : (min_audio_size ≤ totalBuffered (buffer ++ [incoming]) ∧
      incoming = []) ∨
      max_buffer_size ≤ totalBuffered (buffer ++ [incoming])
  · have hsp : shouldProcess (totalBuffered (buffer ++ [incoming]))
        incoming = true := hiff.mpr hc
    have hpos : 0 < totalBuffered (buffer ++ [incoming]) := by
      rcases hc with ⟨hmin, _⟩ | hmax
      · have h8 : (8000 : Nat) ≤ totalBuffered (buffer ++ [incoming]) :=
          hmin
        omega
      · have h5 : (500000 : Nat) ≤ totalBuffered (buffer ++ [incoming]) :=
          hmax
        omega
    have hne : (buffer ++ [incoming]).flatten ≠ [] := by
      intro hnil
      have hlen := flatten_length_total (buffer ++ [incoming])
      rw [hnil] at hlen
      simp at hlen
      omega
    refine ⟨by simp [hsp, hc], by simp [hsp, hc], ?_⟩
    cases hflat : (buffer ++ [incoming]).flatten with
    | nil => exact absurd hflat hne
    | cons a l => simp [hsp, hflat]
  · have hsp : shouldProcess (totalBuffered (buffer ++ [incoming]))
        incoming = false :=
      Bool.eq_false_iff.mpr (fun h => hc (hiff.mp h))
    exact ⟨by simp [hsp, hc], by simp [hsp, hc], by simp [hsp]⟩

/-- C1 counterexample: frames (empty marker, then 9000 data bytes).  The
marker has been seen and the buffered total (9000) exceeds the 8000-byte
minimum, so the claim's condition holds and the spec-side marker-seen
accumulator flushes; the code flushes nothing, because its test looks
only at whether the frame that just arrived is empty. -/
theorem acc_marker_seen_cex :
    (runAcc [[], List.replicate 9000 0]).2 = [] ∧
    (specRunAcc [[], List.replicate 9000 0]).2 =
      [List.replicate 9000 0] ∧
    totalBuffered (runAcc [[], List.replicate 9000 0]).1 = 9000 ∧
    min_audio_size ≤ totalBuffered (runAcc [[], List.replicate 9000 0]).1 ∧
    ([] : List Nat) ∈ (runAcc [[], List.replicate 9000 0]).1 := by
  have hlen : (List.replicate 9000 (0 : Nat)).length = 9000 :=
    List.length_replicate ..
  have hnn : List.replicate 9000 (0 : Nat) ≠ [] := by
    simp only [ne_eq, List.replicate_eq_nil_iff]
    omega
  have key : ∀ c : List Nat, c.length = 9000 → c ≠ [] →
      (runAcc [[], c]).2 = [] ∧
      (specRunAcc [[], c]).2 = [c] ∧
      totalBuffered (runAcc [[], c]).1 = 9000 ∧
      min_audio_size ≤ totalBuffered (runAcc [[], c]).1 ∧
      ([] : List Nat) ∈ (runAcc [[], c]).1 := by
    intro c hc hne
    have ht0 : totalBuffered [([] : List Nat)] = 0 := by
      simp [totalBuffered]
    have ht : totalBuffered [[], c] = 9000 := by
      simp [totalBuffered, hc]
    have e1 : accStep [] ([] : List Nat) = ([[]], none) := by
      rw [accStep_eq_ite]
      simp [shouldProcess, ht0, min_audio_size, max_buffer_size]
    have e2 : accStep [[]] c = ([[], c], none) := by
      rw [accStep_eq_ite]
      simp [shouldProcess, ht, min_audio_size, max_buffer_size, hne]
    have hrun : runAcc [[], c] = ([[], c], []) := by
      simp [runAcc, runAccFrom, e1, e2]
    have s1 : specAccStep [] false ([] : List Nat) =
        (([[]], true), none) := by
      simp [specAccStep, specShouldFlush, ht0, min_audio_size,
        max_buffer_size]
    have s2 : specAccStep [[]] true c = (([], false), some c) := by
      simp [specAccStep, specShouldFlush, ht, min_audio_size,
        max_buffer_size]
    have hspec : specRunAcc [[], c] = (([], false), [c]) := by
      simp [specRunAcc, specRunAccFrom, s1, s2]
    rw [hrun, hspec]
    refine ⟨rfl, rfl, ht, ?_, ?_⟩
    · rw [show (([[], c], ([] : List (List Nat)))).1 = [[], c] from rfl, ht]
      norm_num [min_audio_size]
    · simp
  exact key (List.replicate 9000 0) hlen hnn

/-- C3 counterexample: with transcript "hi" and fragment stream
("a", "b"), no outbound event carries an individual fragment — the client
receives only the user transcript and one `ai_transcript` event with the
full concatenation "ab", sent after the stream completed. -/
theorem fragment_forwarding_cex :
    (processTurn (some 1) ⟨"hi", ["a", "b"], true, 0⟩).1 =
      [OutEvent.userTranscript "hi", OutEvent.aiTranscript "ab"] ∧
    OutEvent.aiTranscript "a" ∉
      (processTurn (some 1) ⟨"hi", ["a", "b"], true, 0⟩).1 ∧
    OutEvent.aiTranscript "b" ∉
      (processTurn (some 1) ⟨"hi", ["a", "b"], true, 0⟩).1 := by
  decide

/-- C3 (amended): for a non-empty transcript and a stream that completes,
the fragments are concatenated in arrival order into the full response;
the client receives the user transcript followed by a single
`ai_transcript` event carrying that concatenation, and the dispatched
persistence call (when a session exists) carries exactly the same
concatenated text. -/
theorem fragments_concatenated_in_order (dbSession : Option Nat)
    (t : TurnInput)
    (hne : isEmptyTranscription t.transcription = false)
    (hok : t.streamOk = true) :
    (processTurn dbSession t).1 =
      [OutEvent.userTranscript t.transcription,
        OutEvent.aiTranscript (String.join t.fragments)] ∧
    (processTurn dbSession t).2 =
      (match dbSession with
       | some sid =>
         [⟨sid, t.transcription, String.join t.fragments, t.procTime⟩]
       | none => []) := by
  constructor <;> simp [processTurn, hne, hok]

/-- Witness for C3 at transcript "ho" and fragments ("x", "yz"). -/
theorem fragments_concatenated_in_order_witness :
    (processTurn (some 2) ⟨"ho", ["x", "yz"], true, 3⟩).1 =
      [OutEvent.userTranscript "ho", OutEvent.aiTranscript "xyz"] := by
  have h := fragments_concatenated_in_order (some 2)
    ⟨"ho", ["x", "yz"], true, 3⟩ (by decide) rfl
  rw [h.1]
  decide

/-- C4 counterexample: transcript "hi", one fragment "Hel" produced, then
the stream raises.  The turn-level `except` catches the error before the
dispatch point, so no `save_to_db` call is made — the partial text "Hel"
is not persisted, contrary to the claim. -/
theorem midstream_failure_no_record_cex :
    (processTurn (some 1) ⟨"hi", ["Hel"], false, 5⟩).2 = [] ∧
    (processTurn (some 1) ⟨"hi", ["Hel"], false, 5⟩).1 =
      [OutEvent.userTranscript "hi"] := by
  decide

/-- C4 (amended): when the response stream fails mid-stream the turn is
aborted — no `recordTurn` call is dispatched and no `ai_transcript` event
is sent; only the already-sent user-transcript event remains, and the
partial text is discarded rather than persisted. -/
theorem midstream_failure_aborts_turn (dbSession : Option Nat)
    (t : TurnInput)
    (hne : isEmptyTranscription t.transcription = false)
    (hfail : t.streamOk = false) :
    processTurn dbSession t =
      ([OutEvent.userTranscript t.transcription], []) := by
  simp [processTurn, hne, hfail]

/-- Witness for C4 at transcript "ok" with partial fragment "part". -/
theorem midstream_failure_aborts_turn_witness :
    processTurn (some 1) ⟨"ok", ["part"], false, 2⟩ =
      ([OutEvent.userTranscript "ok"], []) :=
  midstream_failure_aborts_turn (some 1) ⟨"ok", ["part"], false, 2⟩
    (by decide) rfl

/-- C6: a `save_to_db` call never lets an exception escape (failure is
logged and rolled back), and because the dispatch is fire-and-forget the
connection's outbound events and the persistence calls of every
subsequent turn are identical whatever the write outcomes are — they
coincide with the pure turn loop's. -/
theorem persistence_failures_isolated (dbSession : Option Nat)
    (turns : List TurnInput) (oracle : Nat → DBOutcome)
    (call : PersistCall) (o : DBOutcome) :
    (save_to_db call o).2.raised = false ∧
    ((save_to_db call o).2.committed = false →
      (save_to_db call o).2.loggedError = true) ∧
    (runConn dbSession oracle turns).1 = (runTurns dbSession turns).1 ∧
    (runConn dbSession oracle turns).2.1 = (runTurns dbSession turns).2 ∧
    (∀ r ∈ (runConn dbSession oracle turns).2.2, r.raised = false) := by
  refine ⟨?_, ?_, ?_, ?_, ?_⟩
  · cases o <;> rfl
  · cases o <;> simp [save_to_db]
  · exact (runConnFrom_events_calls dbSession oracle 0 turns).1
  · exact (runConnFrom_events_calls dbSession oracle 0 turns).2
  · exact runConnFrom_never_raises dbSession oracle 0 turns

/-- Witness for C6: one successful turn whose write fails — the failure
is logged and the connection's events match the pure turn loop. -/
theorem persistence_failures_isolated_witness :
    (save_to_db ⟨1, "u", "r", 0⟩ DBOutcome.fail).2.loggedError = true ∧
    (runConn (some 1) (fun _ => DBOutcome.fail) [⟨"hi", ["a"], true, 0⟩]).1 =
      (runTurns (some 1) [⟨"hi", ["a"], true, 0⟩]).1 := by
  have h := persistence_failures_isolated (some 1)
    [⟨"hi", ["a"], true, 0⟩] (fun _ => DBOutcome.fail)
    ⟨1, "u", "r", 0⟩ DBOutcome.fail
  exact ⟨h.2.1 rfl, h.2.2.1⟩

/-- C8 counterexample: the `Conversation` row built by `save_to_db` for a
completed turn has `audio_duration = None` — no duration is estimated
from the byte length anywhere — while `processing_time` is set. -/
theorem audio_duration_not_recorded_cex :
    ((save_to_db ⟨1, "hi", "there", 2⟩ DBOutcome.ok).1).audio_duration =
      none ∧
    ((save_to_db ⟨1, "hi", "there", 2⟩ DBOutcome.ok).1).processing_time =
      some 2 := by
  exact ⟨rfl, rfl⟩

/-- C8 (amended): the dispatched turn record carries the session id, both
texts and the processing latency, but its optional audio-duration
attribute is always left null — `save_to_db` never computes a duration
estimate. -/
theorem turn_record_fields (call : PersistCall) (o : DBOutcome) :
    ((save_to_db call o).1).session_id = call.sessionId ∧
    ((save_to_db call o).1).user_transcript = call.userTranscript ∧
    ((save_to_db call o).1).ai_response = call.aiResponse ∧
    ((save_to_db call o).1).processing_time = some call.processingTime ∧
    ((save_to_db call o).1).audio_duration = none := by
  cases o <;> exact ⟨rfl, rfl, rfl, rfl, rfl⟩

/-- C9 counterexample: two writes for the same session dispatched in
order can commit in reverse: the schedule (second write first) is an
admissible completion order of the unordered background tasks, and the
applied sequence differs from the submission sequence. -/
theorem out_of_order_commit_cex :
    admissibleSchedule 2 [1, 0] ∧
    applySchedule [⟨1, "u1", "r1", 0⟩, ⟨1, "u2", "r2", 0⟩] [1, 0] =
      [⟨1, "u2", "r2", 0⟩, ⟨1, "u1", "r1", 0⟩] ∧
    applySchedule [⟨1, "u1", "r1", 0⟩, ⟨1, "u2", "r2", 0⟩] [1, 0] ≠
      [⟨1, "u1", "r1", 0⟩, ⟨1, "u2", "r2", 0⟩] := by
  refine ⟨?_, by decide, by decide⟩
  show List.Perm [1, 0] (List.range 2)
  decide

/-- C9 (amended): writes are dispatched fire-and-forget in turn order,
and every admissible commit schedule applies each dispatched write
exactly once — the applied sequence is a permutation of the submitted
one — but the code enforces no per-session ordering, so the permutation
need not be the identity. -/
theorem schedule_applies_all_writes (calls : List PersistCall)
    (sched : List Nat) (h : admissibleSchedule calls.length sched) :
    List.Perm (applySchedule calls sched) calls := by
  have h2 := h.filterMap (fun i => calls[i]?)
  rw [filterMap_getElem_range] at h2
  exact h2

/-- Witness for C9 at the reversed two-write schedule. -/
theorem schedule_applies_all_writes_witness :
    List.Perm
      (applySchedule [⟨1, "ua", "ra", 0⟩, ⟨1, "ub", "rb", 0⟩] [1, 0])
      [⟨1, "ua", "ra", 0⟩, ⟨1, "ub", "rb", 0⟩] :=
  schedule_applies_all_writes
    [⟨1, "ua", "ra", 0⟩, ⟨1, "ub", "rb", 0⟩] [1, 0]
    (by show List.Perm [1, 0] (List.range 2); decide)

end AITeacher
